import Mathlib

/-!
A verification development for the codebase-indexer engine
(`codebase_indexer.py`).  The Python source is shallowly embedded:

* machine state (the file system, the analysis cache) is passed
  explicitly; every fallible operation returns `Option` or `Except`;
* external collaborators are modelled as oracles recorded in the
  file-system state: the MD5 checksum of a file is a field of its
  file-system entry (hashlib is external), the result of `ast.parse`
  is a field (`pyParse`, with `none` for a syntax error), and the
  regex / tree-sitter extraction results of the non-Python language
  analyzers are a payload field (the regex engine is external);
* the environment is modelled without the optional tree-sitter
  dependency (`TREE_SITTER_AVAILABLE = False` in the source), so the
  regex fallback strategies are the active ones;
* Python `list(set(xs))` is modelled by `List.dedup`; the actual
  iteration order of a Python set is hash dependent, and only
  order-independent facts (membership, duplicate freeness) are proved
  about such lists.
-/

namespace CodebaseIndexer

/-! ## String and path helpers (Python `str` / `pathlib` operations) -/

/-- Python `\w` on ASCII input: letters, digits, underscore. -/
def isWordChar (c : Char) : Bool :=
  c.isAlphanum || c = '_'

/-- Python `str.lower()` (ASCII case folding suffices for the inputs
modelled here). -/
def lowerStr (s : String) : String :=
  String.mk (s.toList.map Char.toLower)

/-- `needle` occurs as a contiguous substring of `hay` (Python
`needle in hay`); the empty needle occurs in everything. -/
def subOf (hay needle : List Char) : Bool :=
  match hay with
  | [] => needle.isEmpty
  | _ :: rest => needle.isPrefixOf hay || subOf rest needle

/-- Python `needle in hay` on strings. -/
def strContains (hay needle : String) : Bool :=
  subOf hay.toList needle.toList

/-- Python `s.startswith(pre)` (list based, so that the kernel can
evaluate it on concrete inputs). -/
def strStartsWith (s pre : String) : Bool :=
  pre.toList.isPrefixOf s.toList

/-- Python `s.endswith(suf)` (list based). -/
def strEndsWith (s suf : String) : Bool :=
  suf.toList.isSuffixOf s.toList

/-- The string without its first `n` characters (Python `s[n:]`). -/
def strDrop (s : String) (n : Nat) : String :=
  String.mk (s.toList.drop n)

/-- The first `n` characters of a string (Python slice `s[:n]`). -/
def strTake (s : String) (n : Nat) : String :=
  String.mk (s.toList.take n)

/-- Python `str.strip()`: remove leading and trailing whitespace. -/
def pyStrip (s : String) : String :=
  String.mk (((s.toList.dropWhile Char.isWhitespace).reverse.dropWhile
    Char.isWhitespace).reverse)

/-- `pathlib.Path.name`: the final path component (the modelled
paths are file paths without a trailing slash). -/
def pathName (p : String) : String :=
  String.mk ((p.toList.reverse.takeWhile (fun c => c ≠ '/')).reverse)

/-- Index of the last dot in a list of characters, if any
(Python `name.rfind(Char.ofNat 46)` when non-negative). -/
def lastDotIdx (cs : List Char) : Option Nat :=
  match cs.reverse.findIdx? (· = '.') with
  | none => none
  | some j => some (cs.length - 1 - j)

/-- `pathlib.Path.suffix`: the extension of the final component, with
the CPython guard `0 < i < len(name) - 1` on the dot position. -/
def pathSuffix (p : String) : String :=
  let name := (pathName p).toList
  match lastDotIdx name with
  | none => ""
  | some i =>
      if 0 < i ∧ i < name.length - 1 then String.mk (name.drop i) else ""

/-- `pathlib.Path.stem`: the final component without its suffix. -/
def pathStem (p : String) : String :=
  let name := (pathName p).toList
  match lastDotIdx name with
  | none => String.mk name
  | some i =>
      if 0 < i ∧ i < name.length - 1 then String.mk (name.take i)
      else String.mk name

/-! ## Engine configuration (`CodebaseIndexer.__init__`) -/

/-- `self.ignore_patterns` from `__init__` (a Python set, modelled as a
list; only order-independent uses occur). -/
def defaultIgnorePatterns : List String :=
  ["node_modules", "__pycache__", ".git", ".venv", "venv", "env",
   "dist", "build", "target", ".next", ".nuxt", "coverage",
   ".pytest_cache", ".mypy_cache", ".tox", "htmlcov", "vendor",
   "public/assets", "static/vendor", "assets/vendor", "lib", "libs",
   "third-party", "third_party", "vendors", "bower_components",
   "external", "deps", "dependencies", "cmake", "CMakeFiles",
   ".vs", "Debug", "Release", "x64", "Win32", "out",
   "*.pyc", "*.pyo", "*.pyd", "*.so", "*.dll", "*.dylib",
   "*.log", "*.tmp", "*.temp", "*.bak", "*.swp", "*.swo",
   ".DS_Store", "Thumbs.db", "*.min.js", "*.min.css",
   "package-lock.json", "yarn.lock", "poetry.lock", "composer.lock",
   "*.o", "*.obj", "*.a", "*.lib", "*.pdb", "*.ilk", "*.exp",
   "*.exe", "*.out", "CMakeCache.txt", "Makefile", "*.vcxproj",
   "*.vcxproj.filters", "*.vcxproj.user", "*.sln", "*.suo"]

/-- `self.library_patterns` from `__init__`. -/
def defaultLibraryPatterns : List String :=
  ["bootstrap", "bulma", "tailwind", "foundation", "materialize",
   "semantic-ui", "ui-kit", "ant-design", "chakra-ui", "material-ui",
   "jquery", "lodash", "underscore", "moment", "axios", "fetch",
   "react-dom", "vue", "angular", "backbone", "ember", "knockout",
   "handlebars", "mustache", "chart.js", "chartist", "d3",
   "three.js", "babylonjs", "pixi.js", "fabric.js", "konva",
   "typeahead", "select2", "chosen", "dropzone", "sortable",
   "datepicker", "timepicker", "slider", "carousel", "modal",
   "tooltip", "popover", "accordion", "tabs", "dropdown",
   "popper", "tether", "perfect-scrollbar", "swiper", "owl-carousel",
   "fancybox", "lightbox", "magnific-popup", "photoswipe",
   "imgui", "glfw", "glad", "glew", "stb_image", "stb_truetype",
   "glm", "eigen", "bullet", "box2d", "chipmunk", "reactphysics3d",
   "assimp", "tinyobjloader", "rapidjson", "nlohmann", "fmt",
   "spdlog", "catch2", "gtest", "boost", "poco", "curl", "openssl",
   "zlib", "libpng", "libjpeg", "freetype", "sdl2", "sfml", "allegro",
   "webpack", "rollup", "parcel", "browserify", "gulp", "grunt",
   "babel", "typescript", "eslint", "prettier", "jest", "mocha"]

/-- `vendor_indicators` from `_is_vendor_file`. -/
def vendorIndicators : List String :=
  ["/vendor/", "/vendors/", "/third-party/", "/third_party/",
   "/libs/", "/lib/", "/assets/js/", "/assets/css/",
   "/public/js/", "/public/css/", "/static/js/", "/static/css/",
   "/cdn/", "/external/", "/plugins/", "/addons/"]

/-- `library_suffixes` from `_is_known_library`. -/
def librarySuffixes : List String :=
  [".bundle", ".vendor", ".lib", ".plugin", ".widget",
   ".polyfill", ".shim", ".compat", ".legacy"]

/-- `vendor_markers` from `_contains_vendor_markers`. -/
def vendorMarkers : List String :=
  ["* @license", "* @copyright", "* @author",
   "DO NOT EDIT", "GENERATED FILE", "AUTO-GENERATED",
   "This file is part of", "Licensed under",
   "(c) 2", "Copyright (c)", "* jQuery", "* Bootstrap",
   "Distributed under", "MIT License", "Apache License",
   "@preserve", "minified", "compressed"]

/-- `self.language_map` from `__init__` (extension, lowered, to
language tag). -/
def languageMap : List (String × String) :=
  [(".py", "python"), (".js", "javascript"), (".ts", "typescript"),
   (".jsx", "react"), (".tsx", "react_ts"), (".php", "php"),
   (".java", "java"), (".c", "c"), (".cpp", "cpp"), (".cc", "cpp"),
   (".cxx", "cpp"), (".c++", "cpp"), (".h", "c_header"),
   (".hpp", "cpp_header"), (".hh", "cpp_header"),
   (".hxx", "cpp_header"), (".h++", "cpp_header"), (".cs", "csharp"),
   (".go", "go"), (".rs", "rust"), (".rb", "ruby"),
   (".swift", "swift"), (".kt", "kotlin"), (".scala", "scala"),
   (".sql", "sql"), (".sh", "shell"), (".yaml", "yaml"),
   (".yml", "yaml"), (".json", "json"), (".xml", "xml"),
   (".html", "html"), (".css", "css"), (".md", "markdown"),
   (".dockerfile", "dockerfile"), (".toml", "toml")]

/-- The mutable pattern state of one engine instance: the ignore
patterns and library patterns (customizable from the command line via
`add_ignore_pattern` / `add_library_pattern`) and the byte-size
threshold `max_vendor_file_size`. -/
structure Config where
  ignorePatterns : List String
  libraryPatterns : List String
  maxVendorFileSize : Nat
deriving Repr

/-- The configuration produced by `__init__` with no custom patterns:
`max_vendor_file_size = 500 * 1024`. -/
def defaultConfig : Config :=
  { ignorePatterns := defaultIgnorePatterns
    libraryPatterns := defaultLibraryPatterns
    maxVendorFileSize := 500 * 1024 }

/-! ## Data model (the dataclasses at the top of the source) -/

/-- `FileMetadata`: change-detection data for one file. -/
structure FileMetadata where
  path : String
  mtime : Int
  size : Nat
  checksum : String
deriving DecidableEq, Repr

/-- `FunctionInfo`. -/
structure FunctionInfo where
  name : String
  args : List String
  docstring : Option String := none
  decorators : List String := []
  lineNumber : Nat := 0
  returnType : Option String := none
deriving DecidableEq, Repr

/-- `ClassInfo`. -/
structure ClassInfo where
  name : String
  methods : List FunctionInfo
  bases : List String
  docstring : Option String := none
  lineNumber : Nat := 0
deriving DecidableEq, Repr

/-- `ReactComponentInfo` (the `prop_types` field, unused by the
modelled code paths, is omitted). -/
structure ReactComponentInfo where
  name : String
  props : List String
  hooks : List String
  exports : String
  isFunctional : Bool := true
  lineNumber : Nat := 0
deriving DecidableEq, Repr

/-- `PHPClassInfo`.  The Python field `extends` is called
`extendsName` here because `extends` is a Lean keyword. -/
structure PHPClassInfo where
  name : String
  phpNamespace : Option String
  methods : List FunctionInfo
  properties : List String
  extendsName : Option String := none
  implements : List String := []
  lineNumber : Nat := 0
deriving DecidableEq, Repr

/-- `CStructInfo`. -/
structure CStructInfo where
  name : String
  members : List String
  isTypedef : Bool := false
  lineNumber : Nat := 0
deriving DecidableEq, Repr

/-- `CppClassInfo` (the `access_modifiers` dict, unused by the
modelled code paths, is omitted). -/
structure CppClassInfo where
  name : String
  methods : List FunctionInfo
  members : List String
  bases : List String
  isTemplate : Bool := false
  templateParams : List String := []
  lineNumber : Nat := 0
deriving DecidableEq, Repr

/-- `FileInfo`: the per-file record.  `__post_init__` replaces `None`
list fields with empty lists, so all list fields are plain lists.
The Python fields `namespace` and `variables` are called
`namespaceDecl` and `varList` here because both clash with Lean
keywords. -/
structure FileInfo where
  path : String
  language : String
  imports : List String
  functions : List FunctionInfo
  classes : List ClassInfo
  varList : List String
  docstring : Option String := none
  loc : Nat := 0
  components : List ReactComponentInfo := []
  phpClasses : List PHPClassInfo := []
  namespaceDecl : Option String := none
  includes : List String := []
  defines : List String := []
  structs : List CStructInfo := []
  cppClasses : List CppClassInfo := []
  namespaces : List String := []
  metadata : Option FileMetadata := none
deriving DecidableEq, Repr

/-! ## The Python AST fragment used by `analyze_python_file`

`ast.parse` is an external collaborator; its result is embedded as a
statement tree.  Compound statements that the analyzer does not
inspect (`if`, `for`, `try`, ...) are collapsed into `compound`,
which still carries its nested statements because `ast.walk`
traverses them.  Expression-level detail is kept only where the
analyzer reads it (string constants for docstrings, `Name` targets
of assignments). -/

/-- An assignment target: an `ast.Name` (whose `id` the analyzer
records) or any other target expression (ignored). -/
inductive AssignTarget where
  | nameT (s : String)
  | otherT
deriving DecidableEq, Repr

/-- The statement fragment of the Python AST visible to
`analyze_python_file`. -/
inductive PyStmt where
  | importStmt (names : List String)
  | importFrom (module : Option String) (names : List String)
  | functionDef (name : String) (args : List String)
      (decorators : List String) (lineno : Nat) (body : List PyStmt)
  | classDef (name : String) (bases : List String) (lineno : Nat)
      (body : List PyStmt)
  | assign (targets : List AssignTarget) (lineno : Nat)
  | exprConst (value : String)
  | compound (body : List PyStmt)

mutual

/-- Structural equality of statements (the derive handler does not
support the nested recursion through `List`, so equality is defined
by hand and proved lawful below). -/
def stmtBEq : PyStmt → PyStmt → Bool
  | .importStmt a, .importStmt b => a == b
  | .importFrom m a, .importFrom m2 b => m == m2 && a == b
  | .functionDef n a d l b, .functionDef n2 a2 d2 l2 b2 =>
      n == n2 && a == a2 && d == d2 && l == l2 && blockBEq b b2
  | .classDef n ba l b, .classDef n2 ba2 l2 b2 =>
      n == n2 && ba == ba2 && l == l2 && blockBEq b b2
  | .assign t l, .assign t2 l2 => t == t2 && l == l2
  | .exprConst v, .exprConst v2 => v == v2
  | .compound b, .compound b2 => blockBEq b b2
  | _, _ => false

/-- Structural equality of statement lists. -/
def blockBEq : List PyStmt → List PyStmt → Bool
  | [], [] => true
  | x :: xs, y :: ys => stmtBEq x y && blockBEq xs ys
  | _, _ => false

end

mutual

theorem stmtBEq_iff (s t : PyStmt) : stmtBEq s t = true ↔ s = t := by
  cases s with
  | importStmt a => cases t <;> simp [stmtBEq]
  | importFrom m a => cases t <;> simp [stmtBEq]
  | functionDef n a d l b =>
      cases t with
      | functionDef n2 a2 d2 l2 b2 =>
          simp [stmtBEq, blockBEq_iff b b2, and_assoc]
      | _ => simp [stmtBEq]
  | classDef n ba l b =>
      cases t with
      | classDef n2 ba2 l2 b2 =>
          simp [stmtBEq, blockBEq_iff b b2, and_assoc]
      | _ => simp [stmtBEq]
  | assign tg l => cases t <;> simp [stmtBEq]
  | exprConst v => cases t <;> simp [stmtBEq]
  | compound b =>
      cases t with
      | compound b2 => simp [stmtBEq, blockBEq_iff b b2]
      | _ => simp [stmtBEq]

theorem blockBEq_iff (l m : List PyStmt) : blockBEq l m = true ↔ l = m := by
  cases l with
  | nil => cases m <;> simp [blockBEq]
  | cons x xs =>
      cases m with
      | nil => simp [blockBEq]
      | cons y ys => simp [blockBEq, stmtBEq_iff x y, blockBEq_iff xs ys]

end

instance : DecidableEq PyStmt :=
  fun s t => decidable_of_iff _ (stmtBEq_iff s t)

/-- `ast.Module`: the top-level statement list. -/
structure PyModule where
  body : List PyStmt
deriving DecidableEq

/-! ## The file-system and extraction-oracle state -/

/-- The oracle payload holding, for non-Python files, the symbol
lists that the regex / tree-sitter extraction strategies of the
corresponding analyzer produce from the file content.  The
extraction engines (`re`, tree-sitter) are external collaborators;
the analyzer skeletons that consume their results are embedded in
`analyzeOracleFile`. -/
structure ExtractPayload where
  imports : List String := []
  functions : List FunctionInfo := []
  classes : List ClassInfo := []
  varList : List String := []
  components : List ReactComponentInfo := []
  phpClasses : List PHPClassInfo := []
  namespaceDecl : Option String := none
  includes : List String := []
  defines : List String := []
  structs : List CStructInfo := []
  cppClasses : List CppClassInfo := []
  namespaces : List String := []
deriving DecidableEq, Repr

/-- The on-disk state of one file: `stat` data, the MD5 checksum of
its content (hashlib is an external collaborator, so the checksum is
an oracle field), its content as a list of lines (without newline
characters), the `ast.parse` result when the file is parsed as
Python (`none` models a `SyntaxError`), and the extraction payload
for the non-Python analyzers. -/
structure FsEntry where
  mtime : Int
  size : Nat
  checksum : String
  lines : List String
  pyParse : Option PyModule := none
  payload : ExtractPayload := {}
deriving DecidableEq

/-- The file system visible to one run, keyed by run-relative path;
`none` models a missing or unreadable file (every `open`/`stat` on
it raises). -/
abbrev Fs : Type := String → Option FsEntry

/-- The whole content of a file as one string (Python `f.read()`,
with lines joined by newlines). -/
def fileContent (e : FsEntry) : String :=
  String.intercalate "\n" e.lines

/-! ## ChangeCache (`_get_file_metadata`, `_should_reanalyze_file`,
`_load_cache`, `_save_cache`) -/

/-- `_get_file_metadata`: `stat` plus content checksum; `none` when
the underlying file operations raise (file missing or unreadable).
Paths are run-relative strings, so `relative_to(root)` is the
identity in this model. -/
def getFileMetadata (fs : Fs) (relativePath : String) : Option FileMetadata :=
  (fs relativePath).map fun st =>
    { path := relativePath
      mtime := st.mtime
      size := st.size
      checksum := st.checksum }

/-- The in-memory cache `self.file_cache`: path to `FileInfo`, as an
association list (lookup takes the first binding; the Python dict
never holds duplicate keys). -/
abbrev Cache : Type := List (String × FileInfo)

/-- `_should_reanalyze_file`.  `Except.error` models the uncaught
exception when `_get_file_metadata` raises. -/
def shouldReanalyzeFile (force : Bool) (fileCache : Cache) (fs : Fs)
    (relativePath : String) : Except Unit Bool :=
  if force then .ok true
  else
    match List.lookup relativePath fileCache with
    | none => .ok true
    | some cachedFile =>
      match cachedFile.metadata with
      | none => .ok true
      | some cachedMetadata =>
        match getFileMetadata fs relativePath with
        | none => .error ()
        | some currentMetadata =>
          .ok (currentMetadata.mtime != cachedMetadata.mtime ||
               currentMetadata.size != cachedMetadata.size ||
               currentMetadata.checksum != cachedMetadata.checksum)

/-- C1: `shouldReanalyze` is false exactly when the stored
(mtime, size, checksum) triple equals the freshly computed one; it is
true unconditionally under force-refresh, when no (metadata-carrying)
cache entry exists for the path, and whenever any of the three fields
differs. -/
theorem C1_should_reanalyze_iff_triple (force : Bool) (cache : Cache)
    (fs : Fs) (p : String) :
    (force = true → shouldReanalyzeFile force cache fs p = .ok true) ∧
    (List.lookup p cache = none →
      shouldReanalyzeFile force cache fs p = .ok true) ∧
    (∀ st, fs p = some st →
      (shouldReanalyzeFile force cache fs p = .ok false ↔
        force = false ∧ ∃ cf md, List.lookup p cache = some cf ∧
          cf.metadata = some md ∧ md.mtime = st.mtime ∧
          md.size = st.size ∧ md.checksum = st.checksum)) ∧
    (∀ st cf md, fs p = some st → List.lookup p cache = some cf →
      cf.metadata = some md →
      (md.mtime ≠ st.mtime ∨ md.size ≠ st.size ∨ md.checksum ≠ st.checksum) →
      shouldReanalyzeFile force cache fs p = .ok true) := by
  refine ⟨?_, ?_, ?_, ?_⟩
  · intro hf
    simp [shouldReanalyzeFile, hf]
  · intro hl
    cases hf : force <;> simp [shouldReanalyzeFile, hf, hl]
  · intro st hst
    cases hf : force with
    | true =>
      simp [shouldReanalyzeFile, hf]
    | false =>
      cases hl : List.lookup p cache with
      | none => simp [shouldReanalyzeFile, hf, hl]
      | some cf =>
        cases hm : cf.metadata with
        | none => simp [shouldReanalyzeFile, hf, hl, hm]
        | some md =>
          simp only [shouldReanalyzeFile, hf, Bool.false_eq_true, if_false,
            hl, hm, getFileMetadata, hst, Option.map_some']
          constructor
          · intro h
            have hb : (st.mtime != md.mtime || st.size != md.size ||
                st.checksum != md.checksum) = false := by
              injection h
            simp only [Bool.or_eq_false_iff, bne_eq_false_iff_eq] at hb
            exact ⟨trivial, cf, md, rfl, hm, hb.1.1.symm, hb.1.2.symm, hb.2.symm⟩
          · rintro ⟨-, cf2, md2, hcf2, hmd2, h1, h2, h3⟩
            have hcf : cf2 = cf := (Option.some.inj hcf2).symm
            subst hcf
            have hmd : md2 = md := by
              rw [hm] at hmd2; exact (Option.some.inj hmd2).symm
            subst hmd
            rw [← h1, ← h2, ← h3]
            simp
  · intro st cf md hst hl hm hne
    cases hf : force with
    | true => simp [shouldReanalyzeFile, hf]
    | false =>
      simp only [shouldReanalyzeFile, hf, Bool.false_eq_true, if_false,
        hl, hm, getFileMetadata, hst, Option.map_some', Except.ok.injEq,
        Bool.or_eq_true, bne_iff_ne, ne_eq]
      rcases hne with h | h | h
      · exact Or.inl (Or.inl fun he => h he.symm)
      · exact Or.inl (Or.inr fun he => h he.symm)
      · exact Or.inr fun he => h he.symm

/-- A file entry and matching cache record used to exercise C1. -/
def fsEntryW : FsEntry :=
  { mtime := 100, size := 7, checksum := "abc", lines := ["pass"] }

/-- A file system holding exactly one file, `a.py`. -/
def fsW : Fs := fun p => if p = "a.py" then some fsEntryW else none

/-- A cached record for `a.py` whose metadata matches `fsW`. -/
def fiW : FileInfo :=
  { path := "a.py", language := "python", imports := [], functions := []
    classes := [], varList := [], loc := 1
    metadata := some { path := "a.py", mtime := 100, size := 7, checksum := "abc" } }

/-- Witness for C1 at a concrete cache and file system: an unchanged
file is not reanalyzed, and force-refresh reanalyzes it anyway. -/
theorem C1_should_reanalyze_iff_triple_witness :
    shouldReanalyzeFile false [("a.py", fiW)] fsW "a.py" = .ok false ∧
    shouldReanalyzeFile true [("a.py", fiW)] fsW "a.py" = .ok true := by
  constructor
  · exact ((C1_should_reanalyze_iff_triple false [("a.py", fiW)] fsW
      "a.py").2.2.1 fsEntryW rfl).mpr
      ⟨rfl, fiW, { path := "a.py", mtime := 100, size := 7, checksum := "abc" },
        by decide, rfl, rfl, rfl, rfl⟩
  · exact (C1_should_reanalyze_iff_triple true [("a.py", fiW)] fsW "a.py").1 rfl

/-! ## PathClassifier (`_is_basic_ignore`, `_is_vendor_file`,
`_is_minified_file`, `_is_known_library`, `_is_oversized_file`,
`should_ignore`, and the classification cascade of `scan_directory`) -/

/-- `_is_basic_ignore`: denylist match on the raw path string and the
final component (patterns of the form `*.ext` match by suffix on the
name, other patterns by substring of the full path or exact name
equality). -/
def isBasicIgnore (patterns : List String) (path : String) : Bool :=
  let name := pathName path
  patterns.any fun pattern =>
    if strStartsWith pattern "*." then strEndsWith name (strDrop pattern 1)
    else strContains path pattern || name == pattern

/-- `_is_vendor_file`: vendor directory fragments as substrings of the
lowered path. -/
def isVendorFile (path : String) : Bool :=
  vendorIndicators.any fun indicator => strContains (lowerStr path) indicator

/-- A version separator character, the class `[-._]` of the
known-library version regexes. -/
def sepChar (c : Char) : Bool :=
  c = '-' || c = '.' || c = '_'

/-- Scans positions 1 and later of the name for a separator followed
by a digit. -/
def versionSepAfterFirst : List Char → Bool
  | c1 :: c2 :: r => (sepChar c1 && c2.isDigit) || versionSepAfterFirst (c2 :: r)
  | _ => false

/-- Whether `re.match` of `.+[-._]\d+(\.\d+)*` succeeds on the name:
some position at index one or later holds a separator directly
followed by a digit (the `.+` soaks up everything before it, and the
optional `(\.\d+)*` tail never blocks the match). -/
def hasVersionPattern (cs : List Char) : Bool :=
  match cs with
  | [] => false
  | _ :: rest => versionSepAfterFirst rest

/-- Index of the leftmost separator-digit occurrence (the position at
which `re.sub` of `[-._]\d+(\.\d+)*.*$` starts deleting). -/
def stripVersionIdx : List Char → Option Nat
  | c1 :: c2 :: r =>
      if sepChar c1 && c2.isDigit then some 0
      else (stripVersionIdx (c2 :: r)).map (· + 1)
  | _ => none

/-- `re.sub(r"[-._]\d+(\.\d+)*.*$", "", name)`: everything from the
leftmost separator-digit occurrence onwards is removed. -/
def stripVersionSuffix (cs : List Char) : List Char :=
  match stripVersionIdx cs with
  | some i => cs.take i
  | none => cs

/-- `_is_known_library`: substring match of each library pattern
against the lowered stem, then the version-suffix strip followed by
exact membership, then the generic library suffixes. -/
def isKnownLibrary (cfg : Config) (path : String) : Bool :=
  let name := lowerStr (pathStem path)
  if cfg.libraryPatterns.any (fun libPattern => strContains name libPattern) then
    true
  else if hasVersionPattern name.toList &&
      cfg.libraryPatterns.contains (String.mk (stripVersionSuffix name.toList)) then
    true
  else
    librarySuffixes.any fun suf => strEndsWith name suf

/-- A character of the operator class `[=+\-*/]` of the first
minification signature regex. -/
def opChar (c : Char) : Bool :=
  c = '=' || c = '+' || c = '-' || c = '*' || c = '/'

/-- Length of a match of `\w+[=+\-*/]{1,2}\w+` anchored at the start
of `cs`, if any.  The greedy two-operator attempt falls back to one
operator, which then necessarily fails because the following
character is the second operator, never a word character. -/
def tryOpMatch (cs : List Char) : Option Nat :=
  let w1 := cs.takeWhile isWordChar
  if w1.isEmpty then none
  else
    match cs.drop w1.length with
    | [] => none
    | o1 :: r2 =>
      if !opChar o1 then none
      else
        match r2 with
        | [] => none
        | o2 :: r3 =>
          if opChar o2 then
            let w2 := r3.takeWhile isWordChar
            if w2.isEmpty then none else some (w1.length + 2 + w2.length)
          else
            let w2 := r2.takeWhile isWordChar
            if w2.isEmpty then none else some (w1.length + 1 + w2.length)

theorem tryOpMatch_pos (cs : List Char) (n : Nat) (h : tryOpMatch cs = some n) :
    0 < n := by
  simp only [tryOpMatch] at h
  repeat' split at h
  all_goals try exact Option.noConfusion h
  all_goals (injection h with h2; omega)

/-- Number of non-overlapping matches of `\w+[=+\-*/]{1,2}\w+`
(`re.findall` scanning: after a match the scan resumes past it, after
a failure it advances one character). -/
def countOpMatches (cs : List Char) : Nat :=
  match cs with
  | [] => 0
  | c :: rest =>
    match h : tryOpMatch (c :: rest) with
    | some n => 1 + countOpMatches ((c :: rest).drop n)
    | none => countOpMatches rest
termination_by cs.length
decreasing_by
  · have := tryOpMatch_pos _ _ h
    simp only [List.length_drop, List.length_cons]
    omega
  · simp

/-- Number of matches of `\b[a-z]\b`: single ASCII lowercase letters
delimited by word boundaries, counted with the previous character
threaded through. -/
def countSingleLowerAux : Option Char → List Char → Nat
  | _, [] => 0
  | prev, c :: rest =>
      let boundaryBefore := match prev with
        | none => true
        | some p => !isWordChar p
      let boundaryAfter := match rest with
        | [] => true
        | nx :: _ => !isWordChar nx
      (if ('a' ≤ c && c ≤ 'z') && boundaryBefore && boundaryAfter then 1 else 0)
        + countSingleLowerAux (some c) rest

/-- `re.findall(r"\b[a-z]\b", s)` match count. -/
def countSingleLower (cs : List Char) : Nat :=
  countSingleLowerAux none cs

/-- `_is_minified_file`: restricted to `.js` / `.css`, reads the first
ten lines; a high fraction of long stripped lines, or at least two of
four minification signatures, classifies the file as minified.  An
unreadable file yields `False` (the bare `except`).  The float
comparison `long_lines / total_lines > 0.8` is modelled by the exact
rational test `5 * long > 4 * total`; with at most ten lines every
quotient is at least one sixteenth away from `0.8`, so the float and
rational comparisons agree. -/
def isMinifiedFile (fs : Fs) (path : String) : Bool :=
  if !([".js", ".css"].contains (lowerStr (pathSuffix path))) then false
  else
    match fs path with
    | none => false
    | some e =>
      let lines := (e.lines.take 10).map pyStrip
      if lines.isEmpty then false
      else
        let totalLines := lines.length
        let longLines := (lines.filter (fun line => line.length > 200)).length
        if totalLines > 0 && 5 * longLines > 4 * totalLines then true
        else
          let contentSample := String.join (lines.take 3)
          let indicators : List Bool :=
            [decide (countOpMatches contentSample.toList > 10),
             (lines.take 3).any (fun line => line.length > 500),
             strContains contentSample ";var " ||
               strContains contentSample ";function",
             decide (countSingleLower contentSample.toList > 20)]
          decide ((indicators.filter id).length ≥ 2)

/-- `_is_oversized_file`: byte size above `max_vendor_file_size`; a
failing `stat` yields `False` (the bare `except`). -/
def isOversizedFile (cfg : Config) (fs : Fs) (path : String) : Bool :=
  match fs path with
  | none => false
  | some e => decide (e.size > cfg.maxVendorFileSize)

/-- `_contains_vendor_markers`: vendor or license markers in the first
kilobyte, case-insensitively. -/
def containsVendorMarkers (content : String) : Bool :=
  let header := lowerStr (strTake content 1024)
  vendorMarkers.any fun marker => strContains header (lowerStr marker)

/-- `_is_vendor_by_content`: reads the first kilobyte and applies the
marker check; a failing read yields `False`. -/
def isVendorByContent (fs : Fs) (path : String) : Bool :=
  match fs path with
  | none => false
  | some e => containsVendorMarkers (strTake (fileContent e) 1024)

/-- The ignore reason recorded by `scan_directory` for a classified
file: which skip tally the file lands in, or `keep`. -/
inductive IgnoreReason where
  | pattern
  | vendor
  | minified
  | knownLibrary
  | oversized
  | keep
deriving DecidableEq, Repr

/-- The per-file classification cascade of `scan_directory`
(lines 1883 to 1896): basic denylist, vendor path, minified content,
known library, oversized, in that order, each skip counted under its
reason. -/
def classifyFile (cfg : Config) (fs : Fs) (path : String) : IgnoreReason :=
  if isBasicIgnore cfg.ignorePatterns path then .pattern
  else if isVendorFile path then .vendor
  else if isMinifiedFile fs path then .minified
  else if isKnownLibrary cfg path then .knownLibrary
  else if isOversizedFile cfg fs path then .oversized
  else .keep

/-- `should_ignore`: same checks and order as the cascade, collapsed
to one boolean; its pattern check lowers the name for the suffix
comparison but keeps the raw name for the equality comparison. -/
def shouldIgnore (cfg : Config) (fs : Fs) (path : String) : Bool :=
  let name := lowerStr (pathName path)
  if cfg.ignorePatterns.any (fun pattern =>
      if strStartsWith pattern "*." then strEndsWith name (strDrop pattern 1)
      else strContains path pattern || pathName path == pattern) then true
  else if isVendorFile path then true
  else if isMinifiedFile fs path then true
  else if isKnownLibrary cfg path then true
  else if isOversizedFile cfg fs path then true
  else false

/-- Follows the words of the specification for comparison with
`classifyFile`: the claimed check order puts the filename
known-library heuristic third and the content-sampling minification
heuristic fourth. -/
def specOrderClassify (cfg : Config) (fs : Fs) (path : String) : IgnoreReason :=
  if isBasicIgnore cfg.ignorePatterns path then .pattern
  else if isVendorFile path then .vendor
  else if isKnownLibrary cfg path then .knownLibrary
  else if isMinifiedFile fs path then .minified
  else if isOversizedFile cfg fs path then .oversized
  else .keep

/-- C3 (amended): the classifier runs its checks in the order
denylist pattern, vendor path substring, content-sampling
minification, filename known-library, byte-size threshold — the
minification check precedes the known-library check, unlike the
claimed order — and the first matching check decides the ignore
reason, no later check overriding an earlier match. -/
theorem C3_first_match_cascade (cfg : Config) (fs : Fs) (p : String) :
    (isBasicIgnore cfg.ignorePatterns p = true →
      classifyFile cfg fs p = .pattern) ∧
    (isBasicIgnore cfg.ignorePatterns p = false → isVendorFile p = true →
      classifyFile cfg fs p = .vendor) ∧
    (isBasicIgnore cfg.ignorePatterns p = false → isVendorFile p = false →
      isMinifiedFile fs p = true → classifyFile cfg fs p = .minified) ∧
    (isBasicIgnore cfg.ignorePatterns p = false → isVendorFile p = false →
      isMinifiedFile fs p = false → isKnownLibrary cfg p = true →
      classifyFile cfg fs p = .knownLibrary) ∧
    (isBasicIgnore cfg.ignorePatterns p = false → isVendorFile p = false →
      isMinifiedFile fs p = false → isKnownLibrary cfg p = false →
      isOversizedFile cfg fs p = true →
      classifyFile cfg fs p = .oversized) ∧
    (isBasicIgnore cfg.ignorePatterns p = false → isVendorFile p = false →
      isMinifiedFile fs p = false → isKnownLibrary cfg p = false →
      isOversizedFile cfg fs p = false →
      classifyFile cfg fs p = .keep) := by
  refine ⟨?_, ?_, ?_, ?_, ?_, ?_⟩ <;>
    · intros
      simp only [classifyFile, *]
      simp

/-- A 201-character line, long enough for the minified-line test. -/
def jqLine : String := String.mk (List.replicate 201 'x')

/-- A file system holding one file, `jquery.js`, whose name matches a
known library pattern and whose content is minified. -/
def fsJq : Fs := fun p =>
  if p = "jquery.js" then
    some { mtime := 0, size := 10, checksum := "h", lines := [jqLine] }
  else none

set_option maxRecDepth 40000 in
/-- Counterexample to C3 as stated: `jquery.js` matches both the
known-library check and the minification check, and the cascade
decides for minification, whereas the claimed order (known-library
third, minification fourth) would decide for the known-library
reason. -/
theorem C3_order_counterexample :
    isKnownLibrary defaultConfig "jquery.js" = true ∧
    isMinifiedFile fsJq "jquery.js" = true ∧
    classifyFile defaultConfig fsJq "jquery.js" = .minified ∧
    specOrderClassify defaultConfig fsJq "jquery.js" = .knownLibrary := by
  refine ⟨by decide, by decide, ?_, ?_⟩ <;> decide

set_option maxRecDepth 40000 in
/-- Witness for the cascade theorem at the concrete minified library
file: the third check fires and decides the reason. -/
theorem C3_first_match_cascade_witness :
    classifyFile defaultConfig fsJq "jquery.js" = .minified :=
  (C3_first_match_cascade defaultConfig fsJq "jquery.js").2.2.1
    (by decide) (by decide) (by decide)

/-! ## The Python extractor (`analyze_python_file`, `_is_top_level`,
`_create_basic_file_info`) -/

/-- The child statements a node contributes to the `ast.walk`
traversal. -/
def stmtChildren : PyStmt → List PyStmt
  | .functionDef _ _ _ _ b => b
  | .classDef _ _ _ b => b
  | .compound b => b
  | _ => []

mutual

/-- A positive weight for statements, used as the termination measure
of the breadth-first walk. -/
def stmtWeight : PyStmt → Nat
  | .functionDef _ _ _ _ b => 1 + blockWeight b
  | .classDef _ _ _ b => 1 + blockWeight b
  | .compound b => 1 + blockWeight b
  | _ => 1

/-- Total weight of a statement list. -/
def blockWeight : List PyStmt → Nat
  | [] => 0
  | s :: r => stmtWeight s + blockWeight r

end

theorem blockWeight_append (a b : List PyStmt) :
    blockWeight (a ++ b) = blockWeight a + blockWeight b := by
  induction a with
  | nil => simp [blockWeight]
  | cons x xs ih => simp [blockWeight, ih, Nat.add_assoc]

theorem stmtWeight_pos (s : PyStmt) : 0 < stmtWeight s := by
  cases s <;> simp [stmtWeight]

theorem stmtChildren_weight_lt (s : PyStmt) :
    blockWeight (stmtChildren s) < stmtWeight s := by
  cases s <;> simp [stmtChildren, stmtWeight, blockWeight]

/-- `ast.walk`: breadth-first traversal over the statement queue (the
Python implementation pops from the front of a deque and appends the
children of the popped node). -/
def walkAux (queue : List PyStmt) : List PyStmt :=
  match queue with
  | [] => []
  | s :: rest => s :: walkAux (rest ++ stmtChildren s)
termination_by blockWeight queue
decreasing_by
  simp only [blockWeight, blockWeight_append]
  have := stmtChildren_weight_lt s
  omega

/-- `ast.walk(tree)` restricted to statements: the module node itself
matches none of the `isinstance` filters, so only the statement
traversal matters. -/
def pyWalk (tree : PyModule) : List PyStmt :=
  walkAux tree.body

theorem walkAux_weight_le :
    ∀ q s, s ∈ walkAux q → stmtWeight s ≤ blockWeight q := by
  intro q
  induction q using walkAux.induct with
  | case1 => intro s h; simp [walkAux] at h
  | case2 x queue ih =>
      intro s h
      rw [walkAux] at h
      rcases List.mem_cons.mp h with h | h
      · subst h; simp [blockWeight]
      · have hle := ih s h
        rw [blockWeight_append] at hle
        have hlt := stmtChildren_weight_lt x
        simp only [blockWeight]
        omega

/-- `_is_top_level`: membership of the node in `tree.body` (the
Python `in` uses object identity on AST nodes; in the model the
statements of interest are pairwise structurally distinct, where
structural equality coincides with identity). -/
def isTopLevel (node : PyStmt) (tree : PyModule) : Bool :=
  decide (node ∈ tree.body)

/-- `ast.get_docstring` (and the module docstring check): the value
of a leading string-constant expression statement. -/
def getDocstring (body : List PyStmt) : Option String :=
  match body with
  | .exprConst s :: _ => some s
  | _ => none

/-- The string recorded for one `ast.ImportFrom` node:
`module.name1,name2` when the module is non-empty, else the joined
names. -/
def renderImportFrom (module : Option String) (names : List String) : String :=
  let m := module.getD ""
  if m ≠ "" then m ++ "." ++ String.intercalate "," names
  else String.intercalate "," names

/-- The `imports` list built by the walk loop: `Import` contributes
all alias names, `ImportFrom` one rendered string; top-level and
nested nodes alike (the loop applies no `_is_top_level` filter to
them). -/
def extractImports : List PyStmt → List String
  | [] => []
  | .importStmt names :: rest => names ++ extractImports rest
  | .importFrom m names :: rest =>
      renderImportFrom m names :: extractImports rest
  | _ :: rest => extractImports rest

/-- The `functions` list built by the walk loop: walked `FunctionDef`
nodes that pass `_is_top_level`. -/
def extractFunctions (topBody : List PyStmt) : List PyStmt → List FunctionInfo
  | [] => []
  | .functionDef n a d ln b :: rest =>
      if PyStmt.functionDef n a d ln b ∈ topBody then
        { name := n, args := a, docstring := getDocstring b,
          decorators := d, lineNumber := ln } ::
          extractFunctions topBody rest
      else extractFunctions topBody rest
  | _ :: rest => extractFunctions topBody rest

/-- The methods of a class: the `FunctionDef` items directly in the
class body. -/
def classMethods (b : List PyStmt) : List FunctionInfo :=
  b.filterMap fun s =>
    match s with
    | .functionDef n a d ln fb =>
        some { name := n, args := a, docstring := getDocstring fb,
               decorators := d, lineNumber := ln }
    | _ => none

/-- The `classes` list built by the walk loop: walked `ClassDef`
nodes that pass `_is_top_level`, with their direct methods. -/
def extractClasses (topBody : List PyStmt) : List PyStmt → List ClassInfo
  | [] => []
  | .classDef n bas ln b :: rest =>
      if PyStmt.classDef n bas ln b ∈ topBody then
        { name := n, methods := classMethods b, bases := bas,
          docstring := getDocstring b, lineNumber := ln } ::
          extractClasses topBody rest
      else extractClasses topBody rest
  | _ :: rest => extractClasses topBody rest

/-- The `variables` list built by the walk loop: `Name` targets of
top-level `Assign` nodes. -/
def extractVariables (topBody : List PyStmt) : List PyStmt → List String
  | [] => []
  | .assign targets ln :: rest =>
      if PyStmt.assign targets ln ∈ topBody then
        (targets.filterMap fun t =>
          match t with
          | .nameT s => some s
          | .otherT => none) ++ extractVariables topBody rest
      else extractVariables topBody rest
  | _ :: rest => extractVariables topBody rest

/-- `_create_basic_file_info`: minimal record on parse failure.  The
line-count read is guarded by its own `try` (an unreadable file
counts zero lines), but the `_get_file_metadata` call is not, so a
file unreadable at that point raises — modelled as `Except.error`. -/
def createBasicFileInfo (fs : Fs) (path language : String) :
    Except Unit FileInfo :=
  let loc := match fs path with
    | some e => e.lines.length
    | none => 0
  match getFileMetadata fs path with
  | none => .error ()
  | some md =>
      .ok { path := path, language := language, imports := [],
            functions := [], classes := [], varList := [],
            loc := loc, metadata := some md }

/-- `analyze_python_file`: reads and parses the file; on success,
builds the record from the breadth-first AST walk; any failure inside
the `try` block (unreadable file, `SyntaxError`, failing metadata
read) falls through to `_create_basic_file_info`. -/
def analyzePythonFile (fs : Fs) (path : String) : Except Unit FileInfo :=
  match fs path with
  | none => createBasicFileInfo fs path "python"
  | some e =>
    match e.pyParse with
    | none => createBasicFileInfo fs path "python"
    | some tree =>
      let nodes := pyWalk tree
      match getFileMetadata fs path with
      | none => createBasicFileInfo fs path "python"
      | some md =>
          .ok { path := path, language := "python",
                imports := extractImports nodes,
                functions := extractFunctions tree.body nodes,
                classes := extractClasses tree.body nodes,
                varList := extractVariables tree.body nodes,
                docstring := getDocstring tree.body,
                loc := e.lines.length,
                metadata := some md }

/-- C2 (amended): for a file that stays readable, the Python
extractor never propagates an exception: it returns a record, and on
a parse failure that record is the minimal one carrying only path,
language, line count (and the change-detection metadata).  When even
reading the file for metadata fails, the exception escapes through
`_create_basic_file_info` — see the counterexample. -/
theorem C2_graceful_degradation (fs : Fs) (p : String) (e : FsEntry)
    (h : fs p = some e) :
    ∃ fi, analyzePythonFile fs p = .ok fi ∧
      (e.pyParse = none →
        fi = { path := p, language := "python", imports := [],
               functions := [], classes := [], varList := [],
               loc := e.lines.length,
               metadata := some { path := p, mtime := e.mtime,
                                  size := e.size, checksum := e.checksum } }) := by
  cases hp : e.pyParse with
  | none =>
      refine ⟨_, ?_, fun _ => rfl⟩
      simp [analyzePythonFile, h, hp, createBasicFileInfo, getFileMetadata]
  | some tree =>
      refine ⟨{ path := p, language := "python",
                imports := extractImports (pyWalk tree),
                functions := extractFunctions tree.body (pyWalk tree),
                classes := extractClasses tree.body (pyWalk tree),
                varList := extractVariables tree.body (pyWalk tree),
                docstring := getDocstring tree.body,
                loc := e.lines.length,
                metadata := some { path := p, mtime := e.mtime,
                                   size := e.size,
                                   checksum := e.checksum } }, ?_, ?_⟩
      · simp only [analyzePythonFile, h, hp, getFileMetadata,
          Option.map_some']
      · intro hc
        exact absurd hc (by simp)

/-- Counterexample to C2 as stated: a file submitted to the extractor
but unreadable at analysis time (deleted or permission-denied after
the directory listing) raises inside the fallback path, because
`_create_basic_file_info` computes metadata outside any handler; the
exception reaches the caller. -/
theorem C2_unreadable_propagates :
    analyzePythonFile (fun _ => none) "gone.py" = .error () := rfl

/-- A Python file whose content does not parse (a syntax error). -/
def fsSyn : Fs := fun p =>
  if p = "bad.py" then
    some { mtime := 1, size := 2, checksum := "c", lines := ["def ("],
           pyParse := none }
  else none

/-- Witness for the graceful-degradation theorem at a concrete
unparsable file: the extractor returns the minimal record. -/
theorem C2_graceful_degradation_witness :
    analyzePythonFile fsSyn "bad.py" =
      .ok { path := "bad.py", language := "python", imports := [],
            functions := [], classes := [], varList := [], loc := 1,
            metadata := some { path := "bad.py", mtime := 1, size := 2,
                               checksum := "c" } } := by
  obtain ⟨fi, h1, h2⟩ := C2_graceful_degradation fsSyn "bad.py"
    { mtime := 1, size := 2, checksum := "c", lines := ["def ("],
      pyParse := none } rfl
  rw [h1, h2 rfl]
  rfl

/-- If no walked node lies in the top-level body, no function is
extracted. -/
theorem extractFunctions_eq_nil (topBody : List PyStmt) :
    ∀ nodes, (∀ s, s ∈ nodes → s ∉ topBody) →
      extractFunctions topBody nodes = [] := by
  intro nodes
  induction nodes with
  | nil => intro _; simp [extractFunctions]
  | cons x rest ih =>
      intro hnot
      have hx := hnot x (List.mem_cons_self x rest)
      have ih2 := ih fun s hs => hnot s (List.mem_cons_of_mem _ hs)
      cases x <;> simp only [extractFunctions] <;> try exact ih2
      rw [if_neg hx]
      exact ih2

/-- C8: a Python module whose body is a single top-level function
containing a nested function yields a `functions` list of length one,
holding only the top-level function; the nested definition, although
reached by `ast.walk`, fails `_is_top_level` and is excluded. -/
theorem C8_nested_function_excluded (fs : Fs) (p : String) (e : FsEntry)
    (tree : PyModule) (n : String) (a d : List String) (ln : Nat)
    (b : List PyStmt) (m : String) (am dm : List String) (lm : Nat)
    (bm : List PyStmt)
    (hfs : fs p = some e) (hparse : e.pyParse = some tree)
    (hbody : tree.body = [PyStmt.functionDef n a d ln b])
    (_hnested : PyStmt.functionDef m am dm lm bm ∈ b) :
    ∃ fi, analyzePythonFile fs p = .ok fi ∧
      fi.functions.length = 1 ∧
      fi.functions.map FunctionInfo.name = [n] := by
  have hmeta : getFileMetadata fs p =
      some { path := p, mtime := e.mtime, size := e.size,
             checksum := e.checksum } := by
    simp [getFileMetadata, hfs]
  have hfuncs : extractFunctions tree.body (pyWalk tree) =
      [{ name := n, args := a, docstring := getDocstring b,
         decorators := d, lineNumber := ln }] := by
    rw [pyWalk, hbody, walkAux]
    simp only [List.nil_append, stmtChildren]
    simp only [extractFunctions]
    rw [if_pos (List.mem_singleton.mpr rfl)]
    rw [extractFunctions_eq_nil]
    intro s hs hmem
    have hle := walkAux_weight_le b s hs
    rw [List.mem_singleton.mp hmem] at hle
    simp only [stmtWeight] at hle
    omega
  refine ⟨{ path := p, language := "python",
            imports := extractImports (pyWalk tree),
            functions := extractFunctions tree.body (pyWalk tree),
            classes := extractClasses tree.body (pyWalk tree),
            varList := extractVariables tree.body (pyWalk tree),
            docstring := getDocstring tree.body,
            loc := e.lines.length,
            metadata := some { path := p, mtime := e.mtime, size := e.size,
                               checksum := e.checksum } }, ?_, ?_, ?_⟩
  · simp only [analyzePythonFile, hfs, hparse, hmeta]
  · simp [hfuncs]
  · simp [hfuncs]

/-- A module with one top-level function and one nested function. -/
def fsNested : Fs := fun p =>
  if p = "w.py" then
    some { mtime := 0, size := 3, checksum := "w",
           lines := ["def outer():", "    def inner():", "        pass"],
           pyParse := some { body :=
             [PyStmt.functionDef "outer" [] [] 1
               [PyStmt.functionDef "inner" [] [] 2 [PyStmt.compound []]]] } }
  else none

/-- Witness for C8 at a concrete two-function module. -/
theorem C8_nested_function_excluded_witness :
    ∃ fi, analyzePythonFile fsNested "w.py" = .ok fi ∧
      fi.functions.length = 1 ∧
      fi.functions.map FunctionInfo.name = ["outer"] :=
  C8_nested_function_excluded fsNested "w.py" _ _ "outer" [] [] 1
    [PyStmt.functionDef "inner" [] [] 2 [PyStmt.compound []]]
    "inner" [] [] 2 [PyStmt.compound []] rfl rfl rfl
    (List.mem_singleton.mpr rfl)

/-! ## React component extraction helpers
(`_extract_component_props`, `_extract_component_hooks`) -/

/-- Python `list(set(xs))`: one occurrence per distinct element.  The
iteration order of a Python set is hash dependent; `List.dedup` fixes
one representative order, and only order-independent properties are
proved about these lists. -/
def pythonSetList (xs : List String) : List String :=
  xs.dedup

/-- The rendering `f"use{match}" if isinstance(match, str) and match
else match` applied to one `findall` result of the hook patterns (the
first pattern yields the captured group such as `State`, the second
the whole match including the trailing parenthesis). -/
def renderHookMatch (m : String) : String :=
  if m ≠ "" then "use" ++ m else m

/-- `_extract_component_hooks`: the two hook regexes run over the
component body by the external regex engine (their `findall` results
are the two arguments), their rendered results are concatenated, and
the list is set-deduplicated. -/
def extractComponentHooks (matches1 matches2 : List String) : List String :=
  pythonSetList
    (matches1.map renderHookMatch ++ matches2.map renderHookMatch)

/-- Python `s.split(",")`. -/
def splitComma (s : String) : List String :=
  (s.toList.splitOn ',').map String.mk

/-- `_extract_component_props`: the destructured-parameter group (if
the parameter regex matched) is split on commas, stripped and
filtered; the `props.name` usage matches from the regex engine are
appended; the result is set-deduplicated. -/
def extractComponentProps (destructuredGroup : Option String)
    (propUsageMatches : List String) : List String :=
  let fromParams := match destructuredGroup with
    | some propString =>
        ((splitComma propString).map pyStrip).filter (fun p => p ≠ "")
    | none => []
  pythonSetList (fromParams ++ propUsageMatches)

/-- A Python file importing the same module twice. -/
def fsDup : Fs := fun p =>
  if p = "dup.py" then
    some { mtime := 0, size := 1, checksum := "d",
           lines := ["import os", "import os"],
           pyParse := some { body :=
             [PyStmt.importStmt ["os"], PyStmt.importStmt ["os"]] } }
  else none

/-- The record the Python extractor produces for `dup.py`. -/
def fiDup : FileInfo :=
  { path := "dup.py", language := "python", imports := ["os", "os"],
    functions := [], classes := [], varList := [], loc := 2,
    metadata := some { path := "dup.py", mtime := 0, size := 1,
                       checksum := "d" } }

/-- Counterexample to C4 as stated: a Python file whose body imports
`os` twice yields an imports list with the name twice — the Python
extractor applies no set deduplication to it. -/
theorem C4_duplicate_imports_counterexample :
    ∃ fi, analyzePythonFile fsDup "dup.py" = .ok fi ∧
      fi.imports = ["os", "os"] ∧ ¬ fi.imports.Nodup := by
  have hwalk : walkAux [PyStmt.importStmt ["os"], PyStmt.importStmt ["os"]] =
      [PyStmt.importStmt ["os"], PyStmt.importStmt ["os"]] := by
    simp [walkAux, stmtChildren]
  have hres : analyzePythonFile fsDup "dup.py" = .ok fiDup := by
    simp [analyzePythonFile, fsDup, getFileMetadata, pyWalk, hwalk,
      extractImports, extractFunctions, extractClasses, extractVariables,
      getDocstring, renderImportFrom, fiDup]
  exact ⟨fiDup, hres, rfl, by decide⟩

/-- C4 (amended): the symbol-name lists built through Python set
conversion — the hook and prop lists of React components — contain no
duplicate names, but the Python extractor appends import names
without deduplication, so its imports list can hold the same name
twice. -/
theorem C4_dedup_amended :
    (∀ m1 m2, (extractComponentHooks m1 m2).Nodup) ∧
    (∀ g u, (extractComponentProps g u).Nodup) ∧
    (∃ fi, analyzePythonFile fsDup "dup.py" = .ok fi ∧
      fi.imports = ["os", "os"]) := by
  refine ⟨fun m1 m2 => List.nodup_dedup _,
          fun g u => List.nodup_dedup _, ?_⟩
  have hwalk : walkAux [PyStmt.importStmt ["os"], PyStmt.importStmt ["os"]] =
      [PyStmt.importStmt ["os"], PyStmt.importStmt ["os"]] := by
    simp [walkAux, stmtChildren]
  have hres : analyzePythonFile fsDup "dup.py" = .ok fiDup := by
    simp [analyzePythonFile, fsDup, getFileMetadata, pyWalk, hwalk,
      extractImports, extractFunctions, extractClasses, extractVariables,
      getDocstring, renderImportFrom, fiDup]
  exact ⟨fiDup, hres, rfl⟩

/-! ## Export classification (`_get_export_type`) -/

/-- `_get_export_type`: substring scans over the file content, in the
order default, named, both, none.  The braces of the named-export
pattern are written with character escapes. -/
def getExportType (content compName : String) : String :=
  if strContains content ("export default " ++ compName) ||
     strContains content ("export default function " ++ compName) then
    "default"
  else if strContains content ("export \x7b " ++ compName ++ " \x7d") ||
          strContains content ("export function " ++ compName) then
    "named"
  else if strContains content "export default" &&
          strContains content ("export \x7b " ++ compName ++ " \x7d") then
    "both"
  else "none"

/-- C9 (amended): the export classification takes one of the three
values `default`, `named`, `none`; the `both` branch is dead code —
its guard requires the named-export substring, which the earlier
`named` branch already catches — so `both` is never returned, and a
component that is both default- and named-exported is classified
`default`. -/
theorem C9_export_type_amended (content compName : String) :
    getExportType content compName ≠ "both" ∧
    (getExportType content compName = "default" ∨
     getExportType content compName = "named" ∨
     getExportType content compName = "none") := by
  unfold getExportType
  split
  · exact ⟨by decide, Or.inl rfl⟩
  · split
    · exact ⟨by decide, Or.inr (Or.inl rfl)⟩
    · split
      · rename_i h2 h3
        rw [Bool.and_eq_true] at h3
        exact absurd (Bool.or_eq_true_iff.mpr (Or.inl h3.2)) h2
      · exact ⟨by decide, Or.inr (Or.inr rfl)⟩

/-- A file content holding both a default export and a named export
of the component `Foo`. -/
def bothExportContent : String :=
  "export default Foo\nexport \x7b Foo \x7d"

/-- Counterexample to C9 as stated: for a file containing both a
default export and a named export of `Foo`, the claimed
classification is `both`, but the code classifies it `default`. -/
theorem C9_both_counterexample :
    strContains bothExportContent ("export default " ++ "Foo") = true ∧
    strContains bothExportContent ("export \x7b " ++ "Foo" ++ " \x7d") = true ∧
    getExportType bothExportContent "Foo" = "default" ∧
    getExportType bothExportContent "Foo" ≠ "both" := by
  refine ⟨by decide, by decide, by decide, by decide⟩

/-! ## DependencyResolver (`_resolve_import`,
`generate_dependency_map`) -/

/-- The bidirectional stem-containment test of `_resolve_import`:
the import string ends with the stem of the candidate record, or the
stem occurs inside the import string. -/
def matchesImport (importName : String) (f : FileInfo) : Bool :=
  strEndsWith importName (pathStem f.path) ||
    strContains importName (pathStem f.path)

/-- `_resolve_import`: scans the run file list in order and returns
the path of the first record whose stem passes the containment test
(`current_file` is accepted and ignored, as in the source). -/
def resolveImport (files : List FileInfo) (importName currentFile : String) :
    Option String :=
  match files with
  | [] => none
  | f :: rest =>
      if matchesImport importName f then some f.path
      else resolveImport rest importName currentFile

/-- `generate_dependency_map`: one entry per record, each import
replaced by its resolution when one exists and kept verbatim as an
external dependency otherwise (the Python dict is modelled as an
association list in iteration order). -/
def generateDependencyMap (files : List FileInfo) :
    List (String × List String) :=
  files.map fun fileInfo =>
    (fileInfo.path, fileInfo.imports.map fun imp =>
      match resolveImport files imp fileInfo.path with
      | some resolved => resolved
      | none => imp)

/-- C7 (amended): each import is resolved to the path of the first
record in the run file list whose stem passes the bidirectional
containment test — which is the path of file `B` only when no
earlier record also matches — and an import matching no stem keeps
its literal string in the dependency map. -/
theorem C7_first_found_resolution (files : List FileInfo) :
    (∀ imp cur, resolveImport files imp cur =
      (files.find? fun f => matchesImport imp f).map FileInfo.path) ∧
    (∀ fi, fi ∈ files →
      (fi.path, fi.imports.map fun imp =>
        match (files.find? fun f => matchesImport imp f).map FileInfo.path with
        | some resolved => resolved
        | none => imp) ∈ generateDependencyMap files) := by
  have hres : ∀ imp cur, resolveImport files imp cur =
      (files.find? fun f => matchesImport imp f).map FileInfo.path := by
    intro imp cur
    induction files with
    | nil => rfl
    | cons f rest ih =>
        by_cases h : matchesImport imp f
        · rw [resolveImport, if_pos h, List.find?_cons_of_pos _ h]
          rfl
        · rw [resolveImport, if_neg h,
            List.find?_cons_of_neg _ (by simp [h]), ih]
  refine ⟨hres, ?_⟩
  intro fi hfi
  have hmap : (fi.imports.map fun imp =>
      match (files.find? fun f => matchesImport imp f).map FileInfo.path with
      | some resolved => resolved
      | none => imp) =
      (fi.imports.map fun imp =>
        match resolveImport files imp fi.path with
        | some resolved => resolved
        | none => imp) := by
    refine List.map_congr_left fun imp _ => ?_
    rw [hres imp fi.path]
  rw [generateDependencyMap, hmap]
  exact List.mem_map_of_mem _ hfi

/-- A record importing `x/B` from file `A.js`. -/
def fiA : FileInfo :=
  { path := "A.js", language := "javascript", imports := ["x/B"],
    functions := [], classes := [], varList := [] }

/-- A record for `x.js`, listed before `B.js`. -/
def fiX : FileInfo :=
  { path := "x.js", language := "javascript", imports := [],
    functions := [], classes := [], varList := [] }

/-- A record for `B.js`. -/
def fiB : FileInfo :=
  { path := "B.js", language := "javascript", imports := [],
    functions := [], classes := [], varList := [] }

/-- The run file list of the dependency counterexample. -/
def depFiles : List FileInfo := [fiA, fiX, fiB]

/-- Counterexample to C7 as stated: the import `x/B` of `A.js` ends
in the stem of the in-tree file `B.js`, yet the dependency map entry
for `A.js` holds `x.js` — the first record whose stem `x` is
contained in the import — and not the path of `B.js`. -/
theorem C7_first_match_counterexample :
    strEndsWith "x/B" (pathStem fiB.path) = true ∧
    generateDependencyMap depFiles =
      [("A.js", ["x.js"]), ("x.js", []), ("B.js", [])] ∧
    "B.js" ∉ ["x.js"] := by
  refine ⟨by decide, by decide, by decide⟩

/-- Witness for the first-found resolution theorem at the concrete
three-file run. -/
theorem C7_first_found_resolution_witness :
    ("A.js", ["x.js"]) ∈ generateDependencyMap depFiles := by
  have h := (C7_first_found_resolution depFiles).2 fiA (by decide)
  have he : (fiA.path, fiA.imports.map fun imp =>
      match (depFiles.find? fun f => matchesImport imp f).map FileInfo.path with
      | some resolved => resolved
      | none => imp) = ("A.js", ["x.js"]) := by decide
  exact he ▸ h

/-! ## ExtractorRegistry dispatch and the scan loop
(`get_language`, the analyzer skeletons, `scan_directory`,
`_load_cache` / `_save_cache` as state) -/

/-- `get_language`: the language tag for the lowered extension. -/
def getLanguage (path : String) : Option String :=
  List.lookup (lowerStr (pathSuffix path)) languageMap

/-- The shared skeleton of the non-Python analyzers
(`analyze_react_file`, `analyze_javascript_file`, `analyze_php_file`,
`analyze_c_file`, `analyze_cpp_file` in the regex-fallback
configuration): read the file, run the language-specific regex
extraction — an external collaborator whose results are the oracle
`payload` of the file-system entry — attach metadata and line count;
any failure falls back to `_create_basic_file_info`, whose own
metadata read may raise. -/
def analyzeOracleFile (fs : Fs) (path lang : String) :
    Except Unit FileInfo :=
  match fs path with
  | none => createBasicFileInfo fs path lang
  | some e =>
    match getFileMetadata fs path with
    | none => createBasicFileInfo fs path lang
    | some md =>
        .ok { path := path, language := lang,
              imports := e.payload.imports,
              functions := e.payload.functions,
              classes := e.payload.classes,
              varList := e.payload.varList,
              components := e.payload.components,
              phpClasses := e.payload.phpClasses,
              namespaceDecl := e.payload.namespaceDecl,
              includes := e.payload.includes,
              defines := e.payload.defines,
              structs := e.payload.structs,
              cppClasses := e.payload.cppClasses,
              namespaces := e.payload.namespaces,
              loc := e.lines.length,
              metadata := some md }

/-- The per-language dispatch of `scan_directory`
(lines 1907 to 1920). -/
def analyzeDispatch (fs : Fs) (path lang : String) :
    Except Unit FileInfo :=
  if lang = "python" then analyzePythonFile fs path
  else if lang = "react" || lang = "react_ts" then
    analyzeOracleFile fs path lang
  else if lang = "javascript" || lang = "typescript" then
    analyzeOracleFile fs path lang
  else if lang = "php" then analyzeOracleFile fs path lang
  else if lang = "c" || lang = "c_header" then
    analyzeOracleFile fs path lang
  else if lang = "cpp" || lang = "cpp_header" then
    analyzeOracleFile fs path lang
  else createBasicFileInfo fs path lang

/-- One iteration of the `scan_directory` loop for one listed file:
classification cascade, language lookup, change detection, the
content-based vendor check on the reanalysis path, then either fresh
extraction or cache reuse.  `ok none` is a skipped file, `error` an
uncaught exception aborting the scan (the skip tallies are elided). -/
def scanStep (cfg : Config) (force : Bool) (cache : Cache) (fs : Fs)
    (p : String) : Except Unit (Option FileInfo) :=
  match classifyFile cfg fs p with
  | .keep =>
    (match getLanguage p with
     | none => .ok none
     | some language =>
       match shouldReanalyzeFile force cache fs p with
       | .error e => .error e
       | .ok true =>
           if isVendorByContent fs p then .ok none
           else
             match analyzeDispatch fs p language with
             | .error e => .error e
             | .ok fileInfo => .ok (some fileInfo)
       | .ok false =>
           match List.lookup p cache with
           | some cachedFile => .ok (some cachedFile)
           | none => .error ())
  | _ => .ok none

/-- `scan_directory` over the directory listing (the `rglob` file
sequence): processes each file in order and collects the produced
records into `self.files`. -/
def scanDirectory (cfg : Config) (force : Bool) (cache : Cache) (fs : Fs)
    (listing : List String) : Except Unit (List FileInfo) :=
  match listing with
  | [] => .ok []
  | p :: rest =>
      match scanStep cfg force cache fs p with
      | .error e => .error e
      | .ok none => scanDirectory cfg force cache fs rest
      | .ok (some fileInfo) =>
          match scanDirectory cfg force cache fs rest with
          | .error e => .error e
          | .ok files => .ok (fileInfo :: files)

/-- The persisted cache as the next run loads it: `_save_cache`
writes exactly the records of `self.files`, and `_load_cache` keys
each record by its own `path` field (the JSON round trip is the
identity on the modelled fields). -/
def assocOfFiles (files : List FileInfo) : Cache :=
  files.map fun fi => (fi.path, fi)

/-- Well-formedness of a loaded cache: every record sits under its
own path — the invariant `_load_cache` establishes by construction
(`self.file_cache[file_info.path] = file_info`). -/
def WfCache (cache : Cache) : Prop :=
  ∀ pr ∈ cache, (pr.2 : FileInfo).path = pr.1

/-! ## IndexAssembler: the `files` section of `create_summary` -/

/-- Doc truncation `d[:n] if d else None` (an empty or absent
docstring yields no field). -/
def truncDoc (d : Option String) (n : Nat) : Option String :=
  match d with
  | some s => if s ≠ "" then some (strTake s n) else none
  | none => none

/-- One function entry of a file summary. -/
structure FunctionSummary where
  name : String
  args : List String
  doc : Option String
  returnType : Option String
deriving DecidableEq, Repr

/-- One class entry of a file summary. -/
structure ClassSummary where
  name : String
  bases : List String
  methods : List String
  doc : Option String
deriving DecidableEq, Repr

/-- One React component entry of a file summary. -/
structure ComponentSummary where
  name : String
  props : List String
  hooks : List String
  exportType : String
deriving DecidableEq, Repr

/-- One PHP class entry of a file summary. -/
structure PhpClassSummary where
  name : String
  phpNamespace : Option String
  extendsName : Option String
  implements : List String
  methods : List String
  properties : List String
deriving DecidableEq, Repr

/-- One C struct entry of a file summary. -/
structure StructSummary where
  name : String
  members : List String
  isTypedef : Bool
deriving DecidableEq, Repr

/-- One C++ class entry of a file summary. -/
structure CppClassSummary where
  name : String
  methods : List String
  bases : List String
  isTemplate : Bool
  templateParams : List String
deriving DecidableEq, Repr

/-- One entry of the `files` section; conditional JSON keys are
`Option` fields (`none` when the source list is empty or the source
string falsy). -/
structure FileSummary where
  path : String
  language : String
  loc : Nat
  description : Option String
  imports : Option (List String)
  functions : Option (List FunctionSummary)
  classes : Option (List ClassSummary)
  reactComponents : Option (List ComponentSummary)
  phpClasses : Option (List PhpClassSummary)
  includes : Option (List String)
  defines : Option (List String)
  structs : Option (List StructSummary)
  cppClasses : Option (List CppClassSummary)
  namespaces : Option (List String)
  namespaceDecl : Option String
  keyVariables : Option (List String)
deriving DecidableEq, Repr

/-- The function sub-summary of `create_summary`. -/
def functionSummary (f : FunctionInfo) : FunctionSummary :=
  { name := f.name, args := f.args, doc := truncDoc f.docstring 100,
    returnType := f.returnType }

/-- The class sub-summary of `create_summary`. -/
def classSummary (c : ClassInfo) : ClassSummary :=
  { name := c.name, bases := c.bases,
    methods := (c.methods.take 15).map FunctionInfo.name,
    doc := truncDoc c.docstring 100 }

/-- The React component sub-summary of `create_summary`. -/
def componentSummary (c : ReactComponentInfo) : ComponentSummary :=
  { name := c.name, props := c.props, hooks := c.hooks,
    exportType := c.exports }

/-- The PHP class sub-summary of `create_summary`. -/
def phpClassSummary (c : PHPClassInfo) : PhpClassSummary :=
  { name := c.name, phpNamespace := c.phpNamespace,
    extendsName := c.extendsName, implements := c.implements,
    methods := (c.methods.take 15).map FunctionInfo.name,
    properties := c.properties.take 10 }

/-- The C struct sub-summary of `create_summary`. -/
def structSummary (st : CStructInfo) : StructSummary :=
  { name := st.name, members := st.members.take 10,
    isTypedef := st.isTypedef }

/-- The C++ class sub-summary of `create_summary`. -/
def cppClassSummary (c : CppClassInfo) : CppClassSummary :=
  { name := c.name, methods := (c.methods.take 15).map FunctionInfo.name,
    bases := c.bases, isTemplate := c.isTemplate,
    templateParams := c.templateParams }

/-- One `files` entry of `create_summary`, with the per-field
truncation limits of the source. -/
def fileSummary (fi : FileInfo) : FileSummary :=
  { path := fi.path
    language := fi.language
    loc := fi.loc
    description := truncDoc fi.docstring 200
    imports := if fi.imports.isEmpty then none
      else some (fi.imports.take 10)
    functions := if fi.functions.isEmpty then none
      else some ((fi.functions.take 20).map functionSummary)
    classes := if fi.classes.isEmpty then none
      else some ((fi.classes.take 10).map classSummary)
    reactComponents := if fi.components.isEmpty then none
      else some ((fi.components.take 15).map componentSummary)
    phpClasses := if fi.phpClasses.isEmpty then none
      else some ((fi.phpClasses.take 10).map phpClassSummary)
    includes := if fi.includes.isEmpty then none
      else some (fi.includes.take 15)
    defines := if fi.defines.isEmpty then none
      else some (fi.defines.take 10)
    structs := if fi.structs.isEmpty then none
      else some ((fi.structs.take 10).map structSummary)
    cppClasses := if fi.cppClasses.isEmpty then none
      else some ((fi.cppClasses.take 10).map cppClassSummary)
    namespaces := if fi.namespaces.isEmpty then none
      else some (fi.namespaces.take 10)
    namespaceDecl := match fi.namespaceDecl with
      | some ns => if ns ≠ "" then some ns else none
      | none => none
    keyVariables := if fi.varList.isEmpty then none
      else some (fi.varList.take 10) }

/-- The `files` section of `create_summary`: one summary per record,
in record order. -/
def fileSummaries (files : List FileInfo) : List FileSummary :=
  files.map fileSummary

/-! ## Lemmas about the analyzers, change detection and the scan -/

theorem createBasicFileInfo_ok (fs : Fs) (p lang : String) (fi : FileInfo)
    (h : createBasicFileInfo fs p lang = .ok fi) :
    ∃ st, fs p = some st ∧ fi.path = p ∧
      fi.metadata = some { path := p, mtime := st.mtime, size := st.size,
                           checksum := st.checksum } := by
  unfold createBasicFileInfo at h
  cases hfs : fs p with
  | none =>
      rw [show getFileMetadata fs p = none by simp [getFileMetadata, hfs]] at h
      simp at h
  | some st =>
      rw [show getFileMetadata fs p =
        some { path := p, mtime := st.mtime, size := st.size,
               checksum := st.checksum } by simp [getFileMetadata, hfs]] at h
      refine ⟨st, rfl, ?_, ?_⟩ <;>
        · injection h with h2
          rw [← h2]

theorem analyzePythonFile_ok (fs : Fs) (p : String) (fi : FileInfo)
    (h : analyzePythonFile fs p = .ok fi) :
    ∃ st, fs p = some st ∧ fi.path = p ∧
      fi.metadata = some { path := p, mtime := st.mtime, size := st.size,
                           checksum := st.checksum } := by
  unfold analyzePythonFile at h
  cases hfs : fs p with
  | none =>
      rw [hfs] at h
      obtain ⟨st, hst, h1, h2⟩ := createBasicFileInfo_ok fs p "python" fi h
      rw [hfs] at hst
      exact Option.noConfusion hst
  | some e =>
      rw [hfs] at h
      dsimp only at h
      cases hp : e.pyParse with
      | none =>
          rw [hp] at h
          obtain ⟨st, hst, h1, h2⟩ := createBasicFileInfo_ok fs p "python" fi h
          rw [hfs] at hst
          exact ⟨e, rfl, h1, by rw [h2, Option.some.inj hst]⟩
      | some tree =>
          rw [hp] at h
          rw [show getFileMetadata fs p =
            some { path := p, mtime := e.mtime, size := e.size,
                   checksum := e.checksum } by simp [getFileMetadata, hfs]] at h
          refine ⟨e, rfl, ?_, ?_⟩ <;>
            · injection h with h2
              rw [← h2]

theorem analyzeOracleFile_ok (fs : Fs) (p lang : String) (fi : FileInfo)
    (h : analyzeOracleFile fs p lang = .ok fi) :
    ∃ st, fs p = some st ∧ fi.path = p ∧
      fi.metadata = some { path := p, mtime := st.mtime, size := st.size,
                           checksum := st.checksum } := by
  unfold analyzeOracleFile at h
  cases hfs : fs p with
  | none =>
      rw [hfs] at h
      obtain ⟨st, hst, h1, h2⟩ := createBasicFileInfo_ok fs p lang fi h
      rw [hfs] at hst
      exact Option.noConfusion hst
  | some e =>
      rw [hfs] at h
      dsimp only at h
      rw [show getFileMetadata fs p =
        some { path := p, mtime := e.mtime, size := e.size,
               checksum := e.checksum } by simp [getFileMetadata, hfs]] at h
      refine ⟨e, rfl, ?_, ?_⟩ <;>
        · injection h with h2
          rw [← h2]

theorem analyzeDispatch_ok (fs : Fs) (p lang : String) (fi : FileInfo)
    (h : analyzeDispatch fs p lang = .ok fi) :
    ∃ st, fs p = some st ∧ fi.path = p ∧
      fi.metadata = some { path := p, mtime := st.mtime, size := st.size,
                           checksum := st.checksum } := by
  unfold analyzeDispatch at h
  repeat' split at h
  case isTrue => exact analyzePythonFile_ok fs p fi h
  all_goals
    first
      | exact analyzeOracleFile_ok fs p lang fi h
      | exact createBasicFileInfo_ok fs p lang fi h

theorem shouldReanalyze_false_spec (force : Bool) (cache : Cache) (fs : Fs)
    (p : String) (h : shouldReanalyzeFile force cache fs p = .ok false) :
    force = false ∧ ∃ cf md st, List.lookup p cache = some cf ∧
      cf.metadata = some md ∧ fs p = some st ∧
      md.mtime = st.mtime ∧ md.size = st.size ∧ md.checksum = st.checksum := by
  cases hf : force with
  | true => simp [shouldReanalyzeFile, hf] at h
  | false =>
      refine ⟨rfl, ?_⟩
      rw [shouldReanalyzeFile] at h
      simp only [hf, Bool.false_eq_true, if_false] at h
      cases hl : List.lookup p cache with
      | none => rw [hl] at h; simp at h
      | some cf =>
          rw [hl] at h
          dsimp only at h
          cases hm : cf.metadata with
          | none => rw [hm] at h; simp at h
          | some md =>
              rw [hm] at h
              cases hfs : fs p with
              | none =>
                  rw [show getFileMetadata fs p = none by
                    simp [getFileMetadata, hfs]] at h
                  simp at h
              | some st =>
                  rw [show getFileMetadata fs p =
                    some { path := p, mtime := st.mtime, size := st.size,
                           checksum := st.checksum } by
                      simp [getFileMetadata, hfs]] at h
                  injection h with h2
                  simp only [Bool.or_eq_false_iff, bne_eq_false_iff_eq] at h2
                  exact ⟨cf, md, st, rfl, hm, rfl,
                    h2.1.1.symm, h2.1.2.symm, h2.2.symm⟩

theorem shouldReanalyze_false_intro (cache : Cache) (fs : Fs) (p : String)
    (cf : FileInfo) (md : FileMetadata) (st : FsEntry)
    (hl : List.lookup p cache = some cf) (hm : cf.metadata = some md)
    (hfs : fs p = some st) (h1 : md.mtime = st.mtime)
    (h2 : md.size = st.size) (h3 : md.checksum = st.checksum) :
    shouldReanalyzeFile false cache fs p = .ok false := by
  rw [shouldReanalyzeFile]
  simp only [Bool.false_eq_true, if_false, hl, hm]
  rw [show getFileMetadata fs p =
    some { path := p, mtime := st.mtime, size := st.size,
           checksum := st.checksum } by simp [getFileMetadata, hfs]]
  rw [← h1, ← h2, ← h3]
  simp

theorem shouldReanalyze_true_of_lookup_none (force : Bool) (cache : Cache)
    (fs : Fs) (p : String) (hl : List.lookup p cache = none) :
    shouldReanalyzeFile force cache fs p = .ok true := by
  cases hf : force <;> simp [shouldReanalyzeFile, hf, hl]

theorem lookup_mem {a : String} {b : FileInfo} :
    ∀ {l : Cache}, List.lookup a l = some b → (a, b) ∈ l := by
  intro l
  induction l with
  | nil => intro h; exact Option.noConfusion h
  | cons pr rest ih =>
      intro h
      rw [List.lookup] at h
      cases hb : a == pr.1 with
      | false =>
          rw [hb] at h
          exact List.mem_cons_of_mem _ (ih h)
      | true =>
          rw [hb] at h
          injection h with h2
          have ha : a = pr.1 := eq_of_beq hb
          have hpr : (a, b) = pr := by
            rw [ha, ← h2]
          rw [hpr]
          exact List.mem_cons_self _ _

theorem scanStep_ok_some (cfg : Config) (force : Bool) (cache : Cache)
    (fs : Fs) (p : String) (fi : FileInfo)
    (hwf : WfCache cache)
    (h : scanStep cfg force cache fs p = .ok (some fi)) :
    fi.path = p ∧ ∃ st md, fs p = some st ∧ fi.metadata = some md ∧
      md.mtime = st.mtime ∧ md.size = st.size ∧ md.checksum = st.checksum := by
  rw [scanStep] at h
  split at h
  · split at h
    · simp at h
    · split at h
      · exact Except.noConfusion h
      · split at h
        · simp at h
        · split at h
          · exact Except.noConfusion h
          · rename_i fileInfo heq2
            obtain ⟨st, hst, hpath, hmeta⟩ :=
              analyzeDispatch_ok fs p _ fileInfo heq2
            have hfi : fileInfo = fi := by
              injection h with h2
              exact Option.some.inj h2
            rw [hfi] at hpath hmeta
            exact ⟨hpath, st, _, hst, hmeta, rfl, rfl, rfl⟩
      · rename_i heq
        obtain ⟨-, cf, md, st, hl, hm, hfs, h1, h2, h3⟩ :=
          shouldReanalyze_false_spec force cache fs p heq
        split at h
        · rename_i cachedFile hl2
          have hfi : cachedFile = fi := by
            injection h with h4
            exact Option.some.inj h4
          have hcf : cf = cachedFile := by
            rw [hl] at hl2; exact Option.some.inj hl2
          have hmem := hwf (p, cachedFile) (lookup_mem hl2)
          rw [hfi] at hmem
          have hm2 : fi.metadata = some md := by
            rw [← hfi, ← hcf]; exact hm
          exact ⟨hmem, st, md, hfs, hm2, h1, h2, h3⟩
        · exact Except.noConfusion h
  · simp at h

theorem scanDirectory_mem_src (cfg : Config) (force : Bool) (cache : Cache)
    (fs : Fs) :
    ∀ listing files, scanDirectory cfg force cache fs listing = .ok files →
      ∀ fi ∈ files, ∃ p, p ∈ listing ∧
        scanStep cfg force cache fs p = .ok (some fi) := by
  intro listing
  induction listing with
  | nil =>
      intro files h fi hfi
      rw [scanDirectory] at h
      injection h with h2
      rw [← h2] at hfi
      simp at hfi
  | cons p rest ih =>
      intro files h fi hfi
      rw [scanDirectory] at h
      cases hstep : scanStep cfg force cache fs p with
      | error e => rw [hstep] at h; exact Except.noConfusion h
      | ok r =>
          rw [hstep] at h
          cases r with
          | none =>
              obtain ⟨q, hq, hs⟩ := ih files h fi hfi
              exact ⟨q, List.mem_cons_of_mem _ hq, hs⟩
          | some g =>
              dsimp only at h
              cases hrest : scanDirectory cfg force cache fs rest with
              | error e => rw [hrest] at h; exact Except.noConfusion h
              | ok files2 =>
                  rw [hrest] at h
                  injection h with h2
                  rw [← h2] at hfi
                  rcases List.mem_cons.mp hfi with h3 | h3
                  · exact ⟨p, List.mem_cons_self _ _, by rw [hstep, h3]⟩
                  · obtain ⟨q, hq, hs⟩ := ih files2 hrest fi h3
                    exact ⟨q, List.mem_cons_of_mem _ hq, hs⟩

theorem scanDirectory_src_mem (cfg : Config) (force : Bool) (cache : Cache)
    (fs : Fs) :
    ∀ listing files, scanDirectory cfg force cache fs listing = .ok files →
      ∀ p fi, p ∈ listing → scanStep cfg force cache fs p = .ok (some fi) →
        fi ∈ files := by
  intro listing
  induction listing with
  | nil => intro files h p fi hp; simp at hp
  | cons q rest ih =>
      intro files h p fi hp hstep
      rw [scanDirectory] at h
      rcases List.mem_cons.mp hp with hpq | hpr
      · rw [← hpq, hstep] at h
        dsimp only at h
        cases hrest : scanDirectory cfg force cache fs rest with
        | error e => rw [hrest] at h; exact Except.noConfusion h
        | ok files2 =>
            rw [hrest] at h
            injection h with h2
            rw [← h2]
            exact List.mem_cons_self _ _
      · cases hq : scanStep cfg force cache fs q with
        | error e => rw [hq] at h; exact Except.noConfusion h
        | ok r =>
            rw [hq] at h
            cases r with
            | none => exact ih files h p fi hpr hstep
            | some g =>
                dsimp only at h
                cases hrest : scanDirectory cfg force cache fs rest with
                | error e => rw [hrest] at h; exact Except.noConfusion h
                | ok files2 =>
                    rw [hrest] at h
                    injection h with h2
                    rw [← h2]
                    exact List.mem_cons_of_mem _ (ih files2 hrest p fi hpr hstep)

theorem lookup_assocOfFiles_none (files : List FileInfo) (p : String)
    (h : ∀ g ∈ files, g.path ≠ p) :
    List.lookup p (assocOfFiles files) = none := by
  induction files with
  | nil => rfl
  | cons g rest ih =>
      rw [assocOfFiles, List.map_cons, List.lookup]
      have hne : (p == g.path) = false := by
        rw [beq_eq_false_iff_ne]
        exact fun he => h g (List.mem_cons_self _ _) he.symm
      rw [hne]
      exact ih fun g2 hg2 => h g2 (List.mem_cons_of_mem _ hg2)

theorem lookup_assocOfFiles_some (files : List FileInfo) (p : String)
    (fi : FileInfo) (hmem : fi ∈ files) (hpath : fi.path = p)
    (huniq : ∀ g ∈ files, g.path = p → g = fi) :
    List.lookup p (assocOfFiles files) = some fi := by
  induction files with
  | nil => simp at hmem
  | cons g rest ih =>
      rw [assocOfFiles, List.map_cons, List.lookup]
      by_cases hg : g.path = p
      · have hgfi : g = fi := huniq g (List.mem_cons_self _ _) hg
        rw [show (p == g.path) = true by rw [beq_iff_eq]; exact hg.symm]
        rw [hgfi]
      · rw [show (p == g.path) = false by
          rw [beq_eq_false_iff_ne]; exact fun he => hg he.symm]
        rcases List.mem_cons.mp hmem with hfg | hfr
        · exact absurd (hfg ▸ hpath) hg
        · exact ih hfr fun g2 hg2 => huniq g2 (List.mem_cons_of_mem _ hg2)

theorem scanStep_rerun (cfg : Config) (force : Bool) (cache C : Cache)
    (fs : Fs) (p : String) (r : Option FileInfo)
    (_hwf : WfCache cache)
    (h : scanStep cfg force cache fs p = .ok r)
    (hCs : ∀ fi, r = some fi → List.lookup p C = some fi)
    (hCn : r = none → List.lookup p C = none) :
    scanStep cfg force C fs p = .ok r := by
  rw [scanStep] at h ⊢
  cases hcl : classifyFile cfg fs p <;> rw [hcl] at h <;> try exact h
  dsimp only at h ⊢
  cases hlang : getLanguage p <;> rw [hlang] at h
  · exact h
  · dsimp only at h ⊢
    cases hf : force with
    | true =>
        rw [hf] at h
        have ht : ∀ c : Cache, shouldReanalyzeFile true c fs p = .ok true :=
          fun c => by simp [shouldReanalyzeFile]
        rw [ht cache] at h
        rw [ht C]
        exact h
    | false =>
        rw [hf] at h
        cases hs : shouldReanalyzeFile false cache fs p with
        | error e => rw [hs] at h; exact Except.noConfusion h
        | ok b =>
            rw [hs] at h
            cases b with
            | true =>
                cases hv : isVendorByContent fs p <;> rw [hv] at h <;>
                  dsimp only at h
                · cases hd : analyzeDispatch fs p _ with
                  | error e => rw [hd] at h; exact Except.noConfusion h
                  | ok fileInfo =>
                      rw [hd] at h
                      dsimp only at h
                      have hr : r = some fileInfo := by
                        injection h with h2; exact h2.symm
                      obtain ⟨st, hst, hpath, hmeta⟩ :=
                        analyzeDispatch_ok fs p _ fileInfo hd
                      have hC : List.lookup p C = some fileInfo := hCs _ hr
                      rw [shouldReanalyze_false_intro C fs p fileInfo
                        { path := p, mtime := st.mtime, size := st.size,
                          checksum := st.checksum } st hC hmeta hst
                        rfl rfl rfl]
                      dsimp only
                      rw [hC, hr]
                · have hr : r = none := by
                    injection h with h2; exact h2.symm
                  rw [shouldReanalyze_true_of_lookup_none false C fs p
                    (hCn hr)]
                  dsimp only
                  exact h
            | false =>
                obtain ⟨-, cf, md, st, hl, hm, hfs, h1, h2, h3⟩ :=
                  shouldReanalyze_false_spec false cache fs p hs
                rw [hl] at h
                dsimp only at h
                have hr : r = some cf := by
                  injection h with h4; exact h4.symm
                have hC : List.lookup p C = some cf := hCs _ hr
                rw [shouldReanalyze_false_intro C fs p cf md st hC hm hfs
                  h1 h2 h3]
                dsimp only
                rw [hC, hr]

theorem scanDirectory_rerun (cfg : Config) (force : Bool) (cache : Cache)
    (fs : Fs) (listing : List String) (files1 : List FileInfo)
    (hwf : WfCache cache)
    (h1 : scanDirectory cfg force cache fs listing = .ok files1) :
    scanDirectory cfg force (assocOfFiles files1) fs listing = .ok files1 := by
  have hCs : ∀ p fi, p ∈ listing →
      scanStep cfg force cache fs p = .ok (some fi) →
      List.lookup p (assocOfFiles files1) = some fi := by
    intro p fi hp hstep
    apply lookup_assocOfFiles_some
    · exact scanDirectory_src_mem cfg force cache fs listing files1 h1 p fi
        hp hstep
    · exact (scanStep_ok_some cfg force cache fs p fi hwf hstep).1
    · intro g hg hgp
      obtain ⟨q, hq, hsq⟩ :=
        scanDirectory_mem_src cfg force cache fs listing files1 h1 g hg
      have hqp : g.path = q :=
        (scanStep_ok_some cfg force cache fs q g hwf hsq).1
      have hq_eq : q = p := hqp.symm.trans hgp
      rw [hq_eq] at hsq
      have := hstep.symm.trans hsq
      injection this with h2
      exact (Option.some.inj h2).symm
  have hCn : ∀ p, scanStep cfg force cache fs p = .ok none →
      List.lookup p (assocOfFiles files1) = none := by
    intro p hstep
    apply lookup_assocOfFiles_none
    intro g hg hgp
    obtain ⟨q, hq, hsq⟩ :=
      scanDirectory_mem_src cfg force cache fs listing files1 h1 g hg
    have hqp : g.path = q :=
      (scanStep_ok_some cfg force cache fs q g hwf hsq).1
    have hq_eq : q = p := hqp.symm.trans hgp
    rw [hq_eq] at hsq
    have := hstep.symm.trans hsq
    injection this with h2
    exact Option.noConfusion h2
  suffices hgen : ∀ L F, (∀ p ∈ L, p ∈ listing) →
      scanDirectory cfg force cache fs L = .ok F →
      scanDirectory cfg force (assocOfFiles files1) fs L = .ok F from
    hgen listing files1 (fun p hp => hp) h1
  intro L
  induction L with
  | nil =>
      intro F hsub h
      rw [scanDirectory] at h ⊢
      exact h
  | cons p rest ih =>
      intro F hsub h
      rw [scanDirectory] at h ⊢
      cases hstep : scanStep cfg force cache fs p with
      | error e => rw [hstep] at h; exact Except.noConfusion h
      | ok r =>
          rw [hstep] at h
          have hstep2 : scanStep cfg force (assocOfFiles files1) fs p =
              .ok r :=
            scanStep_rerun cfg force cache _ fs p r hwf hstep
              (fun fi hr =>
                hCs p fi (hsub p (List.mem_cons_self _ _))
                  (by rw [← hr]; exact hstep))
              (fun hr => hCn p (by rw [← hr]; exact hstep))
          rw [hstep2]
          cases r with
          | none =>
              exact ih F (fun q hq => hsub q (List.mem_cons_of_mem _ hq)) h
          | some g =>
              dsimp only at h ⊢
              cases hrest : scanDirectory cfg force cache fs rest with
              | error e => rw [hrest] at h; exact Except.noConfusion h
              | ok files2 =>
                  rw [hrest] at h
                  rw [ih files2
                    (fun q hq => hsub q (List.mem_cons_of_mem _ hq)) hrest]
                  exact h

/-- C6: running the engine a second time over an unchanged tree with
the configuration and force flag of the first run, starting from the
cache the first run persisted, reproduces exactly the same record
list, hence identical `files` and `dependency_map` sections of the
output index (the timestamp is not part of either section). -/
theorem C6_idempotent_rerun (cfg : Config) (force : Bool) (cache : Cache)
    (fs : Fs) (listing : List String) (files1 : List FileInfo)
    (hwf : WfCache cache)
    (h1 : scanDirectory cfg force cache fs listing = .ok files1) :
    scanDirectory cfg force (assocOfFiles files1) fs listing = .ok files1 ∧
    ∀ files2,
      scanDirectory cfg force (assocOfFiles files1) fs listing = .ok files2 →
      files2 = files1 ∧ fileSummaries files2 = fileSummaries files1 ∧
        generateDependencyMap files2 = generateDependencyMap files1 := by
  have hrerun := scanDirectory_rerun cfg force cache fs listing files1 hwf h1
  refine ⟨hrerun, fun files2 h2 => ?_⟩
  have heq : files2 = files1 := by
    rw [hrerun] at h2
    exact (Except.ok.inj h2).symm
  exact ⟨heq, by rw [heq], by rw [heq]⟩

/-- A one-file tree holding `a.go`, analyzed by the generic fallback
extractor. -/
def fsGo : Fs := fun p =>
  if p = "a.go" then
    some { mtime := 2, size := 4, checksum := "gg",
           lines := ["package main"] }
  else none

/-- The record the scan produces for `a.go`. -/
def recGo : FileInfo :=
  { path := "a.go", language := "go", imports := [], functions := [],
    classes := [], varList := [], loc := 1,
    metadata := some { path := "a.go", mtime := 2, size := 4,
                       checksum := "gg" } }

set_option maxRecDepth 40000 in
/-- Witness for C6 at the concrete one-file tree: the second run over
the persisted cache reproduces the first run's record list. -/
theorem C6_idempotent_rerun_witness :
    scanDirectory defaultConfig false (assocOfFiles [recGo]) fsGo ["a.go"] =
      .ok [recGo] :=
  (C6_idempotent_rerun defaultConfig false [] fsGo ["a.go"] [recGo]
    (by simp [WfCache]) rfl).1

/-- C10: every record in the run file list at the end of a scan —
freshly extracted or reused from the cache — carries metadata, and a
cache entry lacking metadata is never reused: it makes
`shouldReanalyze` answer true, forcing re-analysis. -/
theorem C10_metadata_nonNone (cfg : Config) (force : Bool) (cache : Cache)
    (fs : Fs) (listing : List String) (files : List FileInfo)
    (hwf : WfCache cache)
    (hscan : scanDirectory cfg force cache fs listing = .ok files) :
    (∀ fi ∈ files, fi.metadata.isSome = true) ∧
    (∀ p cf, List.lookup p cache = some cf → cf.metadata = none →
      shouldReanalyzeFile force cache fs p = .ok true) := by
  constructor
  · intro fi hfi
    obtain ⟨p, hp, hstep⟩ :=
      scanDirectory_mem_src cfg force cache fs listing files hscan fi hfi
    obtain ⟨-, st, md, -, hm, -⟩ :=
      scanStep_ok_some cfg force cache fs p fi hwf hstep
    rw [hm]
    rfl
  · intro p cf hl hm
    cases hf : force with
    | true => simp [shouldReanalyzeFile, hf]
    | false => simp [shouldReanalyzeFile, hf, hl, hm]

/-- A cache entry carrying no metadata. -/
def noMetaFi : FileInfo :=
  { path := "x.py", language := "python", imports := [], functions := [],
    classes := [], varList := [], metadata := none }

set_option maxRecDepth 40000 in
/-- Witness for C10 at a concrete run: the produced record carries
metadata, and the metadata-free cache entry forces re-analysis. -/
theorem C10_metadata_nonNone_witness :
    recGo.metadata.isSome = true ∧
    shouldReanalyzeFile false [("x.py", noMetaFi)] fsGo "x.py" =
      .ok true := by
  have h := C10_metadata_nonNone defaultConfig false [("x.py", noMetaFi)]
    fsGo ["a.go"] [recGo] (by simp [WfCache, noMetaFi]) rfl
  exact ⟨h.1 recGo (List.mem_singleton.mpr rfl),
    h.2 "x.py" noMetaFi rfl rfl⟩

/-- C5 (amended): the persisted cache holds exactly the records of
the files appended during the current scan; an entry whose path was
not in the run listing — in particular every entry for a file deleted
from disk — is absent from the persisted cache, because `_save_cache`
writes `self.files` and nothing else. -/
theorem C5_persist_drops_deleted (cfg : Config) (force : Bool)
    (cache : Cache) (fs : Fs) (listing : List String)
    (files : List FileInfo)
    (hwf : WfCache cache)
    (hscan : scanDirectory cfg force cache fs listing = .ok files) :
    ∀ p, p ∉ listing → List.lookup p (assocOfFiles files) = none := by
  intro p hp
  apply lookup_assocOfFiles_none
  intro g hg hgp
  obtain ⟨q, hq, hsq⟩ :=
    scanDirectory_mem_src cfg force cache fs listing files hscan g hg
  have hqp : g.path = q :=
    (scanStep_ok_some cfg force cache fs q g hwf hsq).1
  have hq_eq : q = p := hqp.symm.trans hgp
  rw [hq_eq] at hq
  exact hp hq

/-- A cached record for a file that no longer exists on disk. -/
def ghostFi : FileInfo :=
  { path := "gone.py", language := "python", imports := [],
    functions := [], classes := [], varList := [], loc := 3,
    metadata := some { path := "gone.py", mtime := 5, size := 9,
                       checksum := "g" } }

/-- The run-start cache holding only the deleted file. -/
def cacheGone : Cache := [("gone.py", ghostFi)]

/-- Counterexample to C5 as stated: a cache entry for a deleted file
(present at run start, absent from the directory listing) is missing
from the persisted cache after the scan — stale entries are pruned,
not preserved. -/
theorem C5_stale_entry_pruned_counterexample :
    scanDirectory defaultConfig false cacheGone (fun _ => none) [] =
      .ok [] ∧
    List.lookup "gone.py" cacheGone = some ghostFi ∧
    List.lookup "gone.py" (assocOfFiles []) = none :=
  ⟨rfl, rfl, rfl⟩

set_option maxRecDepth 40000 in
/-- Witness for the amended C5 at a concrete run: after scanning the
one-file tree, the persisted cache has no entry for the deleted
path. -/
theorem C5_persist_drops_deleted_witness :
    List.lookup "gone.py" (assocOfFiles [recGo]) = none :=
  C5_persist_drops_deleted defaultConfig false [] fsGo ["a.go"] [recGo]
    (by simp [WfCache]) rfl "gone.py" (by decide)

end CodebaseIndexer
